import Mathlib

/-!
Shallow embedding of the node/combinator core of the `functional-ai`
repository (src/auxiliary.py and src/operators/) and proofs about it.

Modelling conventions:
* Python values are the inductive `Val`; the Python value `None` is
  `Val.vnone`.
* A Python keyword-argument dict is an association list `Dict` with the
  insertion-order update `dictInsert` (assignment `d[k] = v`) and
  first-match lookup `dlookup`.
* Python callables that the combinators treat as opaque are Lean
  functions `Dict → Val`; a function's declared parameter set
  (`inspect.signature`, `accepted_keys`) is carried alongside as a
  `List String`.
* A Python call `f(**a, **b)` raises `TypeError` when `a` and `b` share
  a key; `mergeCallKwargs` models that merge.
* Exceptions are `Except String`.
* Positional `*args` are threaded unchanged by every combinator and are
  omitted except in `safe_lambda`, where the spec mentions them.
* Child invocations are instrumented: combinators also return a trace of
  `(output key, argument dict)` events, or an invocation counter, so that
  "invoked exactly once" claims are expressible.
-/

inductive Val where
  | vstr : String → Val
  | vnat : Nat → Val
  | vnone : Val
deriving DecidableEq, Repr

abbrev Dict := List (String × Val)

/-- First-match lookup in an association list (Python dict lookup; keys
are unique in any dict built by `dictInsert`). -/
def dlookup : Dict → String → Option Val
  | [], _ => none
  | kv :: t, k => if kv.1 = k then some kv.2 else dlookup t k

/-- Python dict assignment `d[k] = v`: overwrite in place when the key is
present, otherwise append. -/
def dictInsert (d : Dict) (k : String) (v : Val) : Dict :=
  if d.any (fun kv => kv.1 == k) then
    d.map (fun kv => if kv.1 = k then (k, v) else kv)
  else d ++ [(k, v)]

/-- Build a Python dict from a list of key/value pairs in order
(dict comprehension: later pairs overwrite earlier ones). -/
def pyDict (l : Dict) : Dict :=
  l.foldl (fun d kv => dictInsert d kv.1 kv.2) []

/-- The keyword merge performed by a Python call `f(**a, **b)`: raises
`TypeError` when the two dicts share a key. -/
def mergeCallKwargs (a b : Dict) : Except String Dict :=
  if a.any (fun kv => b.any (fun kv2 => kv2.1 == kv.1)) then
    Except.error "TypeError: got multiple values for keyword argument"
  else Except.ok (a ++ b)

/-! ## src/auxiliary.py: accepted_keys / safe_lambda

`accepted_keys(func)` reads the declared parameter names off the
function's signature; in the embedding each wrapped function carries its
declared parameter list `keys : List String` explicitly. -/

/-- `{k: v for k, v in kwargs.items() if k in keys}` -/
def accepted_args (keys : List String) (kwargs : Dict) : Dict :=
  kwargs.filter (fun kv => keys.any (fun k => k == kv.1))

/-- `keys - set(accepted_args.keys())`, each bound to `None`. -/
def missing_args (keys : List String) (kwargs : Dict) : Dict :=
  (keys.filter
      (fun k => !((accepted_args keys kwargs).any (fun kv => kv.1 == k)))).map
    (fun k => (k, Val.vnone))

/-- `accepted_args | missing_args` (domains are disjoint by
construction, so dict union is concatenation). -/
def all_args (keys : List String) (kwargs : Dict) : Dict :=
  accepted_args keys kwargs ++ missing_args keys kwargs

/-- `safe_lambda(lmbda, keys, *args, **kwargs)` invokes `lmbda`
positionally plus with the filtered/filled named arguments. -/
def safe_lambda (lmbda : List Val → Dict → Val) (keys : List String)
    (args : List Val) (kwargs : Dict) : Val :=
  lmbda args (all_args keys kwargs)

/-! ## src/operators/cache.py: Storage / Cache

The volatile `Storage` holds one field `_storage`, initialised to `None`;
`is_empty` tests `_storage is None`, so a stored `None` leaves the
storage empty. `CacheState.calls` instruments the number of child
invocations made so far by the node instance. -/

structure CacheState where
  storage : Val
  calls : Nat
deriving DecidableEq, Repr

/-- A freshly constructed keyless cache node: empty storage, no child
invocations yet. -/
def Cache.init : CacheState := { storage := Val.vnone, calls := 0 }

/-- `Cache.__call__`: if the storage is empty, compute and store the
child's result; then return the stored value. -/
def Cache.call (child : Dict → Val) (st : CacheState) (kwargs : Dict) :
    Val × CacheState :=
  if st.storage = Val.vnone then
    let v := child kwargs
    (v, { storage := v, calls := st.calls + 1 })
  else (st.storage, st)

/-- `Cache.clear`: delegate to `Storage.clear`, resetting `_storage` to
`None` (the instrumentation counter is not part of the Python state and
is kept). -/
def Cache.clear (st : CacheState) : CacheState :=
  { st with storage := Val.vnone }

/-- Run a sequence of invocations of the same cache node, returning the
final state. -/
def Cache.runMany (child : Dict → Val) (st : CacheState) (l : List Dict) :
    CacheState :=
  l.foldl (fun s a => (Cache.call child s a).2) st

/-- Lexicographic order on the character codes of two strings (the order
Python's `sorted` uses on dict keys). -/
def charsLt : List Char → List Char → Bool
  | [], [] => false
  | [], _ :: _ => true
  | _ :: _, [] => false
  | a :: as, b :: bs =>
    if a.toNat < b.toNat then true
    else if b.toNat < a.toNat then false
    else charsLt as bs

def keyLt (a b : String) : Bool := charsLt a.data b.data

/-- Modelled from the spec: the keyed-variant fingerprint, "a hash of
the sorted argument-set items".  No fingerprint computation exists
anywhere under src/; the hash is modelled as the sorted item list
itself (sorted by key, keys being unique in a dict). -/
def fingerprint (d : Dict) : Dict :=
  d.foldr
    (fun kv acc =>
      (acc.takeWhile (fun kv2 => keyLt kv2.1 kv.1)) ++ kv ::
        (acc.dropWhile (fun kv2 => keyLt kv2.1 kv.1)))
    []

/-! ## src/operators/sequential.py

An agent is modelled as its output key together with a pure call
function.  `Sequential.__call__` runs, for each agent in order:
`result = agent(*args, **kwargs)`, then `kwargs[agent.key] =
agent(*args, **kwargs)` (a second invocation with the same, not yet
updated, kwargs), then `results[agent.key] = result`; finally it calls
`safe_lambda(reducer, reducer_keys, **kwargs, **results)`, whose keyword
merge follows Python call semantics (`mergeCallKwargs`).  The trace
records every child invocation as `(output key, kwargs at the call)`. -/

def Sequential.step (acc : Dict × Dict × List (String × Dict))
    (ag : String × (Dict → Val)) : Dict × Dict × List (String × Dict) :=
  let kwargs := acc.1
  let results := acc.2.1
  let tr := acc.2.2
  let r1 := ag.2 kwargs
  let r2 := ag.2 kwargs
  (dictInsert kwargs ag.1 r2, dictInsert results ag.1 r1,
    tr ++ [(ag.1, kwargs), (ag.1, kwargs)])

def Sequential.call (agents : List (String × (Dict → Val)))
    (reducer_keys : List String) (reducer : List Val → Dict → Val)
    (kwargs0 : Dict) : Except String Val × List (String × Dict) :=
  let acc := agents.foldl Sequential.step (kwargs0, [], [])
  match mergeCallKwargs acc.1 acc.2.1 with
  | Except.error e => (Except.error e, acc.2.2)
  | Except.ok merged =>
    (Except.ok (safe_lambda reducer reducer_keys [] merged), acc.2.2)

/-! ## src/operators/parallel.py

`Parallel.__call__` submits every agent with the same initial kwargs to
a thread pool and joins the futures in submission order, so collection
is by declared order; the embedding evaluates the children in that same
declared order.  Results are gathered into the dict
`{agent.key: result}` and the reducer is invoked through `safe_lambda`
on that dict alone. -/

def Parallel.call (agents : List (String × (Dict → Val)))
    (reducer_keys : List String) (reducer : List Val → Dict → Val)
    (kwargs : Dict) : Val × List (String × Dict) :=
  let results := agents.map (fun ag => (ag.1, ag.2 kwargs))
  let resultsD := pyDict results
  (safe_lambda reducer reducer_keys [] resultsD,
    agents.map (fun ag => (ag.1, kwargs)))

/-! ## src/operators/loop.py

`Loop.__call__` runs `while condition(idx=index, **kwargs)`, and in the
body `result = target(*args, **kwargs, idx=index)`, appends the result,
sets `kwargs[target.key] = result` and increments the index; after the
loop it returns `self.reducer(results)`.  The condition is an arbitrary
Python callable invoked directly (not through `safe_lambda`), so it can
raise `TypeError`; it is modelled as `Dict → Except String Bool`.  The
reducer slot holds `Option`: `loopn` passes its `key` argument (default
`None`) into `loop`'s positional `reducer` parameter, so the reducer of
a `loopn` node is `None` and calling it raises `TypeError`.  The `while`
loop is run on explicit fuel; the trace records the dict passed to each
target invocation. -/

def Loop.run (condition : Dict → Except String Bool)
    (targetFn : Dict → Val) (targetKey : String)
    (reducer : Option (List Val → Val)) :
    Nat → Nat → Dict → List Val → List Dict →
      Except String Val × List Dict
  | 0, _, _, _, tr => (Except.error "out of fuel", tr)
  | fuel + 1, index, kwargs, results, tr =>
    match mergeCallKwargs [("idx", Val.vnat index)] kwargs with
    | Except.error e => (Except.error e, tr)
    | Except.ok condArgs =>
      match condition condArgs with
      | Except.error e => (Except.error e, tr)
      | Except.ok false =>
        match reducer with
        | none =>
          (Except.error "TypeError: NoneType object is not callable", tr)
        | some red => (Except.ok (red results), tr)
      | Except.ok true =>
        match mergeCallKwargs kwargs [("idx", Val.vnat index)] with
        | Except.error e => (Except.error e, tr)
        | Except.ok targetArgs =>
          let result := targetFn targetArgs
          Loop.run condition targetFn targetKey reducer fuel (index + 1)
            (dictInsert kwargs targetKey result) (results ++ [result])
            (tr ++ [targetArgs])

/-- The condition `lambda idx: idx < count` built by `loopn`, under
Python call semantics: it declares the single parameter `idx` and has no
`**kwargs` catch-all, so any other keyword raises `TypeError`. -/
def loopnCond (count : Nat) (kw : Dict) : Except String Bool :=
  if kw.all (fun kv => kv.1 == "idx") then
    match dlookup kw "idx" with
    | some (Val.vnat n) => Except.ok (decide (n < count))
    | _ => Except.error "TypeError: missing a required argument: idx"
  else Except.error "TypeError: got an unexpected keyword argument"

/-- `loopn(target, count, key)` is `loop(target, lambda idx: idx < count,
key)`: the third positional parameter of `loop` is `reducer`, so `key`
(default `None`, i.e. no reducer) lands in the reducer slot and the
`Loop` node's own key is left at its default. -/
def loopn (targetFn : Dict → Val) (targetKey : String) (count : Nat)
    (fuel : Nat) (kwargs : Dict) : Except String Val × List Dict :=
  Loop.run (loopnCond count) targetFn targetKey none fuel 0 kwargs [] []

/-! ## src/operators/catch.py: Retry

`Retry.__call__` loops: invoke the child; on success return; on failure
sleep (timing is not modelled), increment `self.iteration`, and raise
the caught failure once `self.iteration > self.max_retry`, else retry.
`self.iteration` is instance state, initialised to 0 at construction and
never reset.  A (possibly stateful) child is modelled as a function of
its own total invocation count `ncalls`, which the semantics threads. -/

def retryCall (child : Nat → Except String Val) (maxRetry : Nat)
    (ncalls iter : Nat) : Except String Val × Nat × Nat :=
  match child ncalls with
  | Except.ok v => (Except.ok v, ncalls + 1, iter)
  | Except.error e =>
    if iter + 1 > maxRetry then (Except.error e, ncalls + 1, iter + 1)
    else retryCall child maxRetry (ncalls + 1) (iter + 1)
termination_by maxRetry - iter
decreasing_by omega

structure RetryNode where
  maxRetry : Nat
  iteration : Nat
deriving DecidableEq, Repr

/-- One top-level invocation of a Retry node: runs the retry loop
starting from the node's current `iteration` and stores the final
counter back into the node. -/
def Retry.invoke (child : Nat → Except String Val) (st : RetryNode)
    (ncalls : Nat) : Except String Val × RetryNode × Nat :=
  let r := retryCall child st.maxRetry ncalls st.iteration
  (r.1, { st with iteration := r.2.2 }, r.2.1)

/-- Instrumentation helper: 1 for a successful result, 0 for a failure
(used to relate a Retry node's counter to its child-invocation count). -/
def okCount : Except String Val → Nat
  | Except.ok _ => 1
  | Except.error _ => 0

/-! ## src/operators/fork.py

`Fork.__call__`: `result = {target.key: target(*args, **kwargs)}`;
`targets = mapper(**result)`; every generated target is submitted with
the original kwargs and the futures are joined in generation order;
finally `reducer(results)` on the ordered result list.  The trace logs
the seed invocation and then each generated child's invocation. -/

def Fork.call (seed : String × (Dict → Val))
    (mapper : Dict → List (String × (Dict → Val)))
    (reducer : List Val → Val) (kwargs : Dict) :
    Val × List (String × Dict) :=
  let sres := seed.2 kwargs
  let result := [(seed.1, sres)]
  let targets := mapper result
  let results := targets.map (fun t => t.2 kwargs)
  (reducer results, (seed.1, kwargs) :: targets.map (fun t => (t.1, kwargs)))

/-! ## Helper lemmas about dict lookup and `all_args` -/

lemma dlookup_append_some {a : Dict} {k : String} {v : Val} (b : Dict)
    (h : dlookup a k = some v) : dlookup (a ++ b) k = some v := by
  induction a with
  | nil => simp [dlookup] at h
  | cons kv t ih =>
    by_cases hk : kv.1 = k
    · simp [dlookup, hk] at h ⊢; simpa [dlookup, hk] using h
    · simp [dlookup, hk] at h ⊢; exact ih h

lemma dlookup_append_none {a : Dict} {k : String} (b : Dict)
    (h : dlookup a k = none) : dlookup (a ++ b) k = dlookup b k := by
  induction a with
  | nil => simp
  | cons kv t ih =>
    by_cases hk : kv.1 = k
    · simp [dlookup, hk] at h
    · simp [dlookup, hk] at h ⊢; exact ih h

lemma dlookup_accepted_mem {keys : List String} {k : String}
    (kwargs : Dict) (h : k ∈ keys) :
    dlookup (accepted_args keys kwargs) k = dlookup kwargs k := by
  induction kwargs with
  | nil => rfl
  | cons kv t ih =>
    by_cases hk : kv.1 = k
    · have hp : (keys.any fun k2 => k2 == k) = true :=
        List.any_eq_true.mpr ⟨k, h, by simp⟩
      simp [accepted_args, List.filter_cons, dlookup, hk, hp] at ih ⊢
    · cases hp : keys.any fun k2 => k2 == kv.1 with
      | false => simpa [accepted_args, List.filter_cons, hp, dlookup, hk] using ih
      | true => simpa [accepted_args, List.filter_cons, hp, dlookup, hk] using ih

lemma dlookup_accepted_not_mem {keys : List String} {k : String}
    (kwargs : Dict) (h : k ∉ keys) :
    dlookup (accepted_args keys kwargs) k = none := by
  induction kwargs with
  | nil => rfl
  | cons kv t ih =>
    cases hp : keys.any (fun k2 => k2 == kv.1) with
    | false => simpa [accepted_args, List.filter, hp] using ih
    | true =>
      have hkv : kv.1 ∈ keys := by
        rcases List.any_eq_true.mp hp with ⟨x, hx, hbeq⟩
        rcases eq_of_beq hbeq with rfl
        exact hx
      have hk : kv.1 ≠ k := fun he => h (he ▸ hkv)
      simpa [accepted_args, List.filter, hp, dlookup, hk] using ih

lemma dlookup_eq_none_iff (d : Dict) (k : String) :
    dlookup d k = none ↔ d.any (fun kv => kv.1 == k) = false := by
  induction d with
  | nil => simp [dlookup]
  | cons kv t ih =>
    by_cases hk : kv.1 = k <;> simp [dlookup, hk, ih]

lemma dlookup_constMap (l : List String) (v : Val) (k : String) :
    dlookup (l.map (fun k2 => (k2, v))) k
      = if k ∈ l then some v else none := by
  induction l with
  | nil => simp [dlookup]
  | cons a t ih =>
    by_cases ha : a = k
    · simp [dlookup, ha]
    · simp [dlookup, ha, ih, Ne.symm ha]

lemma dlookup_missing (keys : List String) (kwargs : Dict) (k : String) :
    dlookup (missing_args keys kwargs) k
      = if k ∈ keys ∧ dlookup kwargs k = none then some Val.vnone
        else none := by
  unfold missing_args
  rw [dlookup_constMap]
  by_cases hk : k ∈ keys
  · by_cases hv : dlookup kwargs k = none
    · have hacc : dlookup (accepted_args keys kwargs) k = none := by
        rw [dlookup_accepted_mem kwargs hk]; exact hv
      have : k ∈ keys.filter
          (fun k2 => !((accepted_args keys kwargs).any (fun kv => kv.1 == k2))) := by
        refine List.mem_filter.mpr ⟨hk, ?_⟩
        simp [(dlookup_eq_none_iff _ _).mp hacc]
      simp [this, hk, hv]
    · have hacc : dlookup (accepted_args keys kwargs) k ≠ none := by
        rw [dlookup_accepted_mem kwargs hk]; exact hv
      have : k ∉ keys.filter
          (fun k2 => !((accepted_args keys kwargs).any (fun kv => kv.1 == k2))) := by
        intro hmem
        rcases List.mem_filter.mp hmem with ⟨_, hp⟩
        have : (accepted_args keys kwargs).any (fun kv => kv.1 == k) = false := by
          simpa using hp
        exact hacc ((dlookup_eq_none_iff _ _).mpr this)
      simp [this, hk, hv]
  · have : k ∉ keys.filter
        (fun k2 => !((accepted_args keys kwargs).any (fun kv => kv.1 == k2))) := by
      intro hmem
      exact hk (List.mem_filter.mp hmem).1
    simp [this, hk]

lemma dlookup_all_args (keys : List String) (kwargs : Dict) (k : String) :
    dlookup (all_args keys kwargs) k
      = if k ∈ keys then some ((dlookup kwargs k).getD Val.vnone)
        else none := by
  unfold all_args
  by_cases hk : k ∈ keys
  · cases hv : dlookup kwargs k with
    | some v =>
      have : dlookup (accepted_args keys kwargs) k = some v := by
        rw [dlookup_accepted_mem kwargs hk]; exact hv
      simp [dlookup_append_some _ this, hk]
    | none =>
      have hacc : dlookup (accepted_args keys kwargs) k = none := by
        rw [dlookup_accepted_mem kwargs hk]; exact hv
      rw [dlookup_append_none _ hacc, dlookup_missing]
      simp [hk, hv]
  · have hacc : dlookup (accepted_args keys kwargs) k = none :=
      dlookup_accepted_not_mem kwargs hk
    rw [dlookup_append_none _ hacc, dlookup_missing]
    simp [hk]

/-! ## Claim theorems: argument binding and Cache -/

/-- C3: invoking a function through `safe_lambda` passes exactly the
declared names: each declared name is bound to the argument set's value
when present and to the no-value marker `None` when absent, no name
outside the declared set is passed, and the call never fails because a
declared name is missing. -/
theorem safe_lambda_filters (f : List Val → Dict → Val)
    (keys : List String) (args : List Val) (kwargs : Dict) (k : String) :
    safe_lambda f keys args kwargs = f args (all_args keys kwargs) ∧
    dlookup (all_args keys kwargs) k
      = (if k ∈ keys then some ((dlookup kwargs k).getD Val.vnone)
         else none) :=
  ⟨rfl, dlookup_all_args keys kwargs k⟩

/-- C5 counterexample: a keyless Cache node whose child returns `None`
invokes the child on both of two successive calls (the stored `None`
leaves the storage empty), so "the wrapped child is invoked exactly once
across both calls" fails as stated. -/
theorem cache_keyless_claim_counterexample :
    (Cache.runMany (fun _ => Val.vnone) Cache.init [[], []]).calls = 2 ∧
    (Cache.runMany (fun _ => Val.vnone) Cache.init [[], []]).calls ≠ 1 := by
  constructor <;> decide

/-- C5 amended: for a keyless Cache node whose child's result on the
given argument set is not `None`, two successive invocations return the
identical value, the child is invoked exactly once across both calls,
and after `clear()` the next call recomputes (a second child
invocation returning the child's value again). -/
theorem cache_keyless_idempotent (child : Dict → Val) (a : Dict)
    (h : child a ≠ Val.vnone) :
    Cache.call child Cache.init a
        = (child a, { storage := child a, calls := 1 }) ∧
    Cache.call child { storage := child a, calls := 1 } a
        = (child a, { storage := child a, calls := 1 }) ∧
    Cache.call child
        (Cache.clear { storage := child a, calls := 1 }) a
        = (child a, { storage := child a, calls := 2 }) := by
  refine ⟨?_, ?_, ?_⟩ <;> simp [Cache.call, Cache.init, Cache.clear, h]

/-- Witness for C5's amended theorem at the repository's own test input
(`dummy("test")` wrapped in a volatile cache). -/
theorem cache_keyless_idempotent_witness :
    Cache.call (fun _ => Val.vstr "test") Cache.init []
        = (Val.vstr "test", { storage := Val.vstr "test", calls := 1 }) ∧
    Cache.call (fun _ => Val.vstr "test")
        { storage := Val.vstr "test", calls := 1 } []
        = (Val.vstr "test", { storage := Val.vstr "test", calls := 1 }) ∧
    Cache.call (fun _ => Val.vstr "test")
        (Cache.clear { storage := Val.vstr "test", calls := 1 }) []
        = (Val.vstr "test", { storage := Val.vstr "test", calls := 2 }) :=
  cache_keyless_idempotent (fun _ => Val.vstr "test") [] (by decide)

/-- C2 counterexample: the repository's Cache has no keyed variant.  With
argument sets A = \x7bx: 1\x7d and B = \x7bx: 2\x7d, whose fingerprints
(hashes of the sorted argument-set items) differ, the child is invoked
once in total across the two calls — not once per call — and the second
call returns the value cached for A, ignoring B entirely. -/
theorem cache_keyed_claim_counterexample :
    fingerprint [("x", Val.vnat 1)] ≠ fingerprint [("x", Val.vnat 2)] ∧
    (Cache.call (fun d => (dlookup d "x").getD Val.vnone) Cache.init
        [("x", Val.vnat 1)]
      = (Val.vnat 1, { storage := Val.vnat 1, calls := 1 })) ∧
    (Cache.call (fun d => (dlookup d "x").getD Val.vnone)
        { storage := Val.vnat 1, calls := 1 } [("x", Val.vnat 2)]
      = (Val.vnat 1, { storage := Val.vnat 1, calls := 1 })) := by
  refine ⟨by decide, by decide, by decide⟩

/-- C2 amended: the Cache node ignores the argument set entirely
(single empty/populated slot, no fingerprint): called with argument set
A and then any argument set B, the child is invoked exactly once in
total (provided its result for A is not `None`) and the second call
returns the value computed for A. -/
theorem cache_ignores_arguments (child : Dict → Val) (a b : Dict)
    (h : child a ≠ Val.vnone) :
    Cache.call child Cache.init a
        = (child a, { storage := child a, calls := 1 }) ∧
    Cache.call child { storage := child a, calls := 1 } b
        = (child a, { storage := child a, calls := 1 }) := by
  constructor <;> simp [Cache.call, Cache.init, h]

/-- Witness for C2's amended theorem at A = \x7bx: 1\x7d, B = \x7bx: 2\x7d. -/
theorem cache_ignores_arguments_witness :
    Cache.call (fun d => (dlookup d "x").getD Val.vnone) Cache.init
        [("x", Val.vnat 1)]
      = (Val.vnat 1, { storage := Val.vnat 1, calls := 1 }) ∧
    Cache.call (fun d => (dlookup d "x").getD Val.vnone)
        { storage := Val.vnat 1, calls := 1 } [("x", Val.vnat 2)]
      = (Val.vnat 1, { storage := Val.vnat 1, calls := 1 }) :=
  cache_ignores_arguments (fun d => (dlookup d "x").getD Val.vnone)
    [("x", Val.vnat 1)] [("x", Val.vnat 2)] (by decide)

lemma cache_runMany_none (child : Dict → Val)
    (h : ∀ a, child a = Val.vnone) (l : List Dict) (c : Nat) :
    Cache.runMany child { storage := Val.vnone, calls := c } l
      = { storage := Val.vnone, calls := c + l.length } := by
  induction l generalizing c with
  | nil => simp [Cache.runMany]
  | cons a t ih =>
    have : (Cache.call child { storage := Val.vnone, calls := c } a).2
        = { storage := Val.vnone, calls := c + 1 } := by
      simp [Cache.call, h]
    simp only [Cache.runMany, List.foldl_cons] at ih ⊢
    rw [this, ih]
    simp [Nat.add_comm, Nat.add_assoc, Nat.add_left_comm]

/-- C10: if the wrapped child of a volatile keyless Cache node returns
`None`, the cache never becomes populated: after any sequence of
invocations the storage still reports empty and the child has been
invoked once per call. -/
theorem cache_none_never_populated (child : Dict → Val)
    (h : ∀ a, child a = Val.vnone) (l : List Dict) :
    Cache.runMany child Cache.init l
      = { storage := Val.vnone, calls := l.length } := by
  have := cache_runMany_none child h l 0
  simpa [Cache.init] using this

/-- Witness for C10 at a concrete constantly-`None` child and three
invocations: all three invoke the child apart, and the storage stays
empty. -/
theorem cache_none_never_populated_witness :
    Cache.runMany (fun _ => Val.vnone) Cache.init [[], [], []]
      = { storage := Val.vnone, calls := 3 } :=
  cache_none_never_populated (fun _ => Val.vnone) (fun _ => rfl) [[], [], []]

/-! ## Claim theorems: Sequential -/

lemma any_key_dictInsert_self (d : Dict) (k : String) (v : Val) :
    (dictInsert d k v).any (fun kv => kv.1 == k) = true := by
  unfold dictInsert
  cases hp : d.any (fun kv => kv.1 == k) with
  | false => simp
  | true =>
    rcases List.any_eq_true.mp hp with ⟨kv0, hmem, hbeq⟩
    have hk : kv0.1 = k := eq_of_beq hbeq
    simp only [if_pos]
    refine List.any_eq_true.mpr ⟨(k, v), List.mem_map.mpr ⟨kv0, hmem, ?_⟩, by simp⟩
    simp [hk]

lemma any_key_dictInsert_mono (d : Dict) (k : String) (v : Val)
    (k2 : String) (h : d.any (fun kv => kv.1 == k2) = true) :
    (dictInsert d k v).any (fun kv => kv.1 == k2) = true := by
  unfold dictInsert
  cases hp : d.any (fun kv => kv.1 == k) with
  | false => simp only [Bool.false_eq_true, if_false, List.any_append, h, Bool.true_or]
  | true =>
    rcases List.any_eq_true.mp h with ⟨kv0, hmem, hbeq⟩
    have hk2 : kv0.1 = k2 := eq_of_beq hbeq
    simp only [if_pos]
    by_cases he : kv0.1 = k
    · refine List.any_eq_true.mpr
        ⟨(k, v), List.mem_map.mpr ⟨kv0, hmem, by simp [he]⟩, ?_⟩
      have hkk : k = k2 := he ▸ hk2
      simp [hkk]
    · exact List.any_eq_true.mpr
        ⟨kv0, List.mem_map.mpr ⟨kv0, hmem, by simp [he]⟩, by simp [hk2]⟩

lemma mergeCallKwargs_dup (a b : Dict) (k : String)
    (ha : a.any (fun kv => kv.1 == k) = true)
    (hb : b.any (fun kv => kv.1 == k) = true) :
    mergeCallKwargs a b
      = Except.error "TypeError: got multiple values for keyword argument" := by
  rcases List.any_eq_true.mp ha with ⟨kva, hmema, hbeqa⟩
  rcases List.any_eq_true.mp hb with ⟨kvb, hmemb, hbeqb⟩
  have hcond : a.any (fun kv => b.any (fun kv2 => kv2.1 == kv.1)) = true := by
    refine List.any_eq_true.mpr ⟨kva, hmema, ?_⟩
    refine List.any_eq_true.mpr ⟨kvb, hmemb, ?_⟩
    simp [eq_of_beq hbeqa, eq_of_beq hbeqb]
  simp [mergeCallKwargs, hcond]

lemma seq_step_hasKey (acc : Dict × Dict × List (String × Dict))
    (ag : String × (Dict → Val)) :
    ((Sequential.step acc ag).1.any (fun kv => kv.1 == ag.1) = true) ∧
    ((Sequential.step acc ag).2.1.any (fun kv => kv.1 == ag.1) = true) := by
  constructor <;> exact any_key_dictInsert_self _ _ _

lemma seq_step_mono (acc : Dict × Dict × List (String × Dict))
    (ag : String × (Dict → Val)) (k : String)
    (h1 : acc.1.any (fun kv => kv.1 == k) = true)
    (h2 : acc.2.1.any (fun kv => kv.1 == k) = true) :
    ((Sequential.step acc ag).1.any (fun kv => kv.1 == k) = true) ∧
    ((Sequential.step acc ag).2.1.any (fun kv => kv.1 == k) = true) := by
  constructor <;> exact any_key_dictInsert_mono _ _ _ _ (by assumption)

lemma seq_foldl_hasKey (rest : List (String × (Dict → Val))) (k : String) :
    ∀ acc : Dict × Dict × List (String × Dict),
      acc.1.any (fun kv => kv.1 == k) = true →
      acc.2.1.any (fun kv => kv.1 == k) = true →
      ((rest.foldl Sequential.step acc).1.any (fun kv => kv.1 == k) = true) ∧
      ((rest.foldl Sequential.step acc).2.1.any (fun kv => kv.1 == k) = true) := by
  induction rest with
  | nil => exact fun acc h1 h2 => ⟨h1, h2⟩
  | cons ag t ih =>
    intro acc h1 h2
    have hstep := seq_step_mono acc ag k h1 h2
    simpa using ih (Sequential.step acc ag) hstep.1 hstep.2

/-- C1: on the code, a Sequential node with a non-empty child list and a
reducer never hands the reducer the accumulated results: each child is
invoked twice per pipeline call (once for `results`, once more for the
kwargs binding), and the final call
`safe_lambda(reducer, reducer_keys, **kwargs, **results)` always raises
`TypeError`, because every child's output key occurs in both `kwargs`
and `results`.  The concrete conjunct evaluates the three-child pipeline
of the spec's visibility test: the trace shows every child invoked
exactly twice (later children do observe earlier bindings), and the call
ends in the duplicate-keyword `TypeError` instead of a reduced value. -/
theorem sequential_double_invoke_type_error
    (agents : List (String × (Dict → Val))) (reducer_keys : List String)
    (reducer : List Val → Dict → Val) (kwargs0 : Dict)
    (h : agents ≠ []) :
    ((Sequential.call agents reducer_keys reducer kwargs0).1
       = Except.error "TypeError: got multiple values for keyword argument") ∧
    (Sequential.call
        [("one", fun _ => Val.vstr "One"), ("two", fun _ => Val.vstr "Two"),
         ("three", fun _ => Val.vstr "Three")]
        ["one", "two", "three"] (fun _ _ => Val.vnone) []
      = (Except.error "TypeError: got multiple values for keyword argument",
         [("one", []), ("one", []),
          ("two", [("one", Val.vstr "One")]),
          ("two", [("one", Val.vstr "One")]),
          ("three", [("one", Val.vstr "One"), ("two", Val.vstr "Two")]),
          ("three", [("one", Val.vstr "One"), ("two", Val.vstr "Two")])])) := by
  constructor
  · rcases List.exists_cons_of_ne_nil h with ⟨ag, rest, rfl⟩
    unfold Sequential.call
    have hstep := seq_step_hasKey (kwargs0, [], []) ag
    have hfold := seq_foldl_hasKey rest ag.1
      (Sequential.step (kwargs0, [], []) ag) hstep.1 hstep.2
    simp only [List.foldl_cons]
    rw [mergeCallKwargs_dup _ _ ag.1 hfold.1 hfold.2]
  · rfl

/-- Witness for C1's theorem at a one-child pipeline. -/
theorem sequential_double_invoke_type_error_witness :
    (Sequential.call [("one", fun _ => Val.vstr "One")] ["one"]
        (fun _ _ => Val.vnone) []).1
      = Except.error "TypeError: got multiple values for keyword argument" :=
  (sequential_double_invoke_type_error [("one", fun _ => Val.vstr "One")]
    ["one"] (fun _ _ => Val.vnone) [] (List.cons_ne_nil _ _)).1

/-! ## Claim theorems: Parallel -/

lemma dictInsert_not_mem (d : Dict) (k : String) (v : Val)
    (h : d.any (fun kv => kv.1 == k) = false) :
    dictInsert d k v = d ++ [(k, v)] := by
  simp [dictInsert, h]

lemma foldl_dictInsert_app (l : List (String × Val)) :
    ∀ acc : Dict, ((acc ++ l).map Prod.fst).Nodup →
      l.foldl (fun d kv => dictInsert d kv.1 kv.2) acc = acc ++ l := by
  induction l with
  | nil => intro acc _; simp
  | cons kv t ih =>
    intro acc h
    have hdisj : kv.1 ∉ acc.map Prod.fst := by
      rw [List.map_append] at h
      rcases List.nodup_append.mp h with ⟨_, _, hdisj⟩
      intro hmem
      exact hdisj hmem (by simp)
    have hk : acc.any (fun kv2 => kv2.1 == kv.1) = false := by
      by_contra hc
      rcases List.any_eq_true.mp (Bool.of_not_eq_false hc) with ⟨kv0, hm, hbeq⟩
      exact hdisj (List.mem_map.mpr ⟨kv0, hm, eq_of_beq hbeq⟩)
    have happ : (((acc ++ [kv]) ++ t).map Prod.fst).Nodup := by
      simpa [List.append_assoc] using h
    simp only [List.foldl_cons, dictInsert_not_mem acc kv.1 kv.2 hk]
    rw [ih (acc ++ [kv]) happ]
    simp

lemma pyDict_nodup (l : List (String × Val))
    (h : (l.map Prod.fst).Nodup) : pyDict l = l := by
  have := foldl_dictInsert_app l [] (by simpa using h)
  simpa [pyDict] using this

lemma dlookup_map_self (agents : List (String × (Dict → Val)))
    (kwargs : Dict) (h : (agents.map Prod.fst).Nodup) :
    ∀ ag ∈ agents,
      dlookup (agents.map (fun ag2 => (ag2.1, ag2.2 kwargs))) ag.1
        = some (ag.2 kwargs) := by
  induction agents with
  | nil => intro ag hmem; cases hmem
  | cons a t ih =>
    intro ag hmem
    rcases List.mem_cons.mp hmem with rfl | hmem2
    · simp [dlookup]
    · have hne : a.1 ≠ ag.1 := by
        intro he
        have : ag.1 ∈ t.map Prod.fst := List.mem_map.mpr ⟨ag, hmem2, rfl⟩
        exact (List.nodup_cons.mp h).1 (he ▸ this)
      simp only [List.map_cons, dlookup, if_neg hne]
      exact ih (List.nodup_cons.mp h).2 ag hmem2

/-- C6: a Parallel invocation evaluates every child against the same
initial argument set, associates each declared output key with that
child's own result in declared child order (collection is by submission
order, never completion order), and hands the reducer that keyed result
set through the binding helper, so a reducer declaring a child's key
receives that child's result. -/
theorem parallel_declared_order
    (agents : List (String × (Dict → Val))) (reducer_keys : List String)
    (reducer : List Val → Dict → Val) (kwargs : Dict)
    (h : (agents.map Prod.fst).Nodup) :
    (Parallel.call agents reducer_keys reducer kwargs
      = (safe_lambda reducer reducer_keys []
            (agents.map (fun ag => (ag.1, ag.2 kwargs))),
         agents.map (fun ag => (ag.1, kwargs)))) ∧
    (∀ ag ∈ agents,
      dlookup (agents.map (fun ag2 => (ag2.1, ag2.2 kwargs))) ag.1
        = some (ag.2 kwargs)) ∧
    (∀ ag ∈ agents, ag.1 ∈ reducer_keys →
      dlookup (all_args reducer_keys
          (agents.map (fun ag2 => (ag2.1, ag2.2 kwargs)))) ag.1
        = some (ag.2 kwargs)) := by
  have hkeys : ((agents.map (fun ag => (ag.1, ag.2 kwargs))).map Prod.fst).Nodup := by
    simpa [List.map_map, Function.comp] using h
  refine ⟨?_, dlookup_map_self agents kwargs h, ?_⟩
  · unfold Parallel.call
    dsimp only
    rw [pyDict_nodup _ hkeys]
  · intro ag hmem hkey
    rw [dlookup_all_args, if_pos hkey, dlookup_map_self agents kwargs h ag hmem]
    simp

/-- Witness for C6 at the spec's three-key example \x7ba, b, c\x7d. -/
theorem parallel_declared_order_witness :
    Parallel.call
        [("a", fun _ => Val.vstr "ra"), ("b", fun _ => Val.vstr "rb"),
         ("c", fun _ => Val.vstr "rc")]
        ["a", "b", "c"] (fun _ _ => Val.vnone) []
      = (safe_lambda (fun _ _ => Val.vnone) ["a", "b", "c"] []
            [("a", Val.vstr "ra"), ("b", Val.vstr "rb"), ("c", Val.vstr "rc")],
         [("a", []), ("b", []), ("c", [])]) :=
  (parallel_declared_order
    [("a", fun _ => Val.vstr "ra"), ("b", fun _ => Val.vstr "rb"),
     ("c", fun _ => Val.vstr "rc")]
    ["a", "b", "c"] (fun _ _ => Val.vnone) [] (by decide)).1

/-! ## Claim theorems: Loop / loopn -/

/-- C4: on the code, a bounded loop built with `loopn(target, count=5)`
does not run five iterations.  The condition `lambda idx: idx < count`
declares only `idx`, but `Loop.__call__` invokes it as
`condition(idx=index, **kwargs)` after binding the child's result under
the child's output key, so the second condition check raises
`TypeError`: the child is invoked exactly once, with `idx = 0`, and no
reduced result list is ever returned.  Independently, `loopn` passes its
`key` argument into `loop`'s positional `reducer` parameter, so even a
loop that finishes (second conjunct, `count = 0`) fails calling its
reducer, which is `None`. -/
theorem loopn_breaks (targetFn : Dict → Val) :
    (loopn targetFn "it" 5 10 []
       = (Except.error "TypeError: got an unexpected keyword argument",
          [[("idx", Val.vnat 0)]])) ∧
    (loopn targetFn "it" 0 10 []
       = (Except.error "TypeError: NoneType object is not callable", [])) :=
  ⟨rfl, rfl⟩

/-! ## Claim theorems: Retry -/

/-- C7: a Retry node over a child that fails on its first two
invocations and succeeds on the third returns the third invocation's
success value when the configured maximum is at least 2; with maximum 1
the second failure, and with maximum 0 the first failure, propagates as
the child's own error, unmodified. -/
theorem retry_third_attempt_succeeds
    (child : Nat → Except String Val) (e0 e1 : String) (v : Val)
    (h0 : child 0 = Except.error e0) (h1 : child 1 = Except.error e1)
    (h2 : ∀ n, 2 ≤ n → child n = Except.ok v) (m : Nat) :
    (2 ≤ m → retryCall child m 0 0 = (Except.ok v, 3, 2)) ∧
    (m = 1 → retryCall child m 0 0 = (Except.error e1, 2, 2)) ∧
    (m = 0 → retryCall child m 0 0 = (Except.error e0, 1, 1)) := by
  refine ⟨?_, ?_, ?_⟩
  · intro hm
    have e2 : child 2 = Except.ok v := h2 2 (by omega)
    unfold retryCall
    simp only [h0]
    rw [if_neg (by omega : ¬ 0 + 1 > m)]
    unfold retryCall
    simp only [h1, Nat.zero_add]
    rw [if_neg (by omega : ¬ 1 + 1 > m)]
    unfold retryCall
    simp [e2]
  · intro hm
    subst hm
    unfold retryCall
    simp only [h0]
    rw [if_neg (by omega : ¬ 0 + 1 > 1)]
    unfold retryCall
    simp [h1]
  · intro hm
    subst hm
    unfold retryCall
    simp [h0]

/-- Witness for C7 at a concrete fail-fail-succeed child with maxima
2, 1 and 0. -/
theorem retry_third_attempt_succeeds_witness :
    (retryCall
        (fun n => if n = 0 then Except.error "e0"
          else if n = 1 then Except.error "e1" else Except.ok (Val.vstr "v"))
        2 0 0 = (Except.ok (Val.vstr "v"), 3, 2)) ∧
    (retryCall
        (fun n => if n = 0 then Except.error "e0"
          else if n = 1 then Except.error "e1" else Except.ok (Val.vstr "v"))
        1 0 0 = (Except.error "e1", 2, 2)) ∧
    (retryCall
        (fun n => if n = 0 then Except.error "e0"
          else if n = 1 then Except.error "e1" else Except.ok (Val.vstr "v"))
        0 0 0 = (Except.error "e0", 1, 1)) := by
  refine ⟨?_, ?_, ?_⟩
  · exact (retry_third_attempt_succeeds _ "e0" "e1" (Val.vstr "v") rfl rfl
      (fun n hn => by
        simp [show n ≠ 0 by omega, show n ≠ 1 by omega]) 2).1 (by omega)
  · exact (retry_third_attempt_succeeds _ "e0" "e1" (Val.vstr "v") rfl rfl
      (fun n hn => by
        simp [show n ≠ 0 by omega, show n ≠ 1 by omega]) 1).2.1 rfl
  · exact (retry_third_attempt_succeeds _ "e0" "e1" (Val.vstr "v") rfl rfl
      (fun n hn => by
        simp [show n ≠ 0 by omega, show n ≠ 1 by omega]) 0).2.2 rfl

lemma retry_accounting (fuel : Nat) :
    ∀ (child : Nat → Except String Val) (m n i : Nat), m - i ≤ fuel →
      i ≤ (retryCall child m n i).2.2 ∧
      (retryCall child m n i).2.1
        = n + ((retryCall child m n i).2.2 - i)
            + okCount (retryCall child m n i).1 := by
  induction fuel with
  | zero =>
    intro child m n i hf
    unfold retryCall
    cases hc : child n with
    | ok v => simp [okCount]
    | error e =>
      dsimp only
      rw [if_pos (by omega : i + 1 > m)]
      simp [okCount]
  | succ f ih =>
    intro child m n i hf
    unfold retryCall
    cases hc : child n with
    | ok v => simp [okCount]
    | error e =>
      dsimp only
      by_cases hgt : i + 1 > m
      · rw [if_pos hgt]; simp [okCount]
      · rw [if_neg hgt]
        have h2 := ih child m (n + 1) (i + 1) (by omega)
        rcases h2 with ⟨hle, heq⟩
        constructor
        · omega
        · omega

/-- C8: a Retry node's attempt counter is never reset: one invocation
leaves the counter at its starting value plus the number of failures
counted during that invocation (child invocations = failures, plus one
for a final success), and the next invocation of the same node instance
starts from that accumulated counter.  Concretely, a node with maximum 2
whose child fails except on its third overall invocation succeeds once
while counting 2 failures, and the follow-up invocation, starting with
the counter at 2, exhausts its remaining budget on a single child
failure and re-raises it. -/
theorem retry_counter_not_reset
    (child : Nat → Except String Val) (m n i : Nat) :
    (i ≤ (retryCall child m n i).2.2 ∧
     (retryCall child m n i).2.1
       = n + ((retryCall child m n i).2.2 - i)
           + okCount (retryCall child m n i).1) ∧
    (Retry.invoke
        (fun n2 => if n2 = 2 then Except.ok (Val.vstr "v")
          else Except.error "boom")
        { maxRetry := 2, iteration := 0 } 0
      = (Except.ok (Val.vstr "v"), { maxRetry := 2, iteration := 2 }, 3)) ∧
    (Retry.invoke
        (fun n2 => if n2 = 2 then Except.ok (Val.vstr "v")
          else Except.error "boom")
        { maxRetry := 2, iteration := 2 } 3
      = (Except.error "boom", { maxRetry := 2, iteration := 3 }, 4)) := by
  refine ⟨retry_accounting (m - i) child m n i (Nat.le_refl _), ?_, ?_⟩
  · simp [Retry.invoke, retryCall]
  · simp [Retry.invoke, retryCall]

/-! ## Claim theorems: Fork -/

/-- C9: a Fork invocation invokes the seed child once, hands the mapper
the seed's result bound under the seed's output key, invokes each
generated child with the original argument set, collects their results
in generation order, and returns the reducer of that ordered list; the
trace is exactly the seed event followed by one event per generated
child.  The concrete conjunct runs the spec's dynamic fan-out test: a
seed value "3" mapped to three echo children reduced by concatenation
returns the echoes joined in generation order. -/
theorem fork_generation_order
    (seed : String × (Dict → Val))
    (mapper : Dict → List (String × (Dict → Val)))
    (reducer : List Val → Val) (kwargs : Dict) :
    ((Fork.call seed mapper reducer kwargs).1
       = reducer ((mapper [(seed.1, seed.2 kwargs)]).map
           (fun t => t.2 kwargs))) ∧
    ((Fork.call seed mapper reducer kwargs).2
       = (seed.1, kwargs) ::
           (mapper [(seed.1, seed.2 kwargs)]).map (fun t => (t.1, kwargs))) ∧
    ((Fork.call seed mapper reducer kwargs).2.length
       = 1 + (mapper [(seed.1, seed.2 kwargs)]).length) ∧
    (Fork.call ("dum", fun _ => Val.vstr "3")
        (fun d =>
          match dlookup d "dum" with
          | some (Val.vstr "3") =>
            [("c0", fun _ => Val.vstr "echo0"),
             ("c1", fun _ => Val.vstr "echo1"),
             ("c2", fun _ => Val.vstr "echo2")]
          | _ => [])
        (fun l => Val.vstr (String.join (l.map (fun v =>
          match v with
          | Val.vstr s => s
          | _ => "")))) []
      = (Val.vstr "echo0echo1echo2",
         [("dum", []), ("c0", []), ("c1", []), ("c2", [])])) := by
  refine ⟨rfl, rfl, by simp [Fork.call, Nat.add_comm], rfl⟩

